import Mathlib

/-!
Verification of the smart_doc_ocr repository: a shallow embedding of the
pattern-driven field extractor (`app/layout_parser/layout_parser.py`) and of
the image-normalization arithmetic (`app/preprocess/image_preprocessor.py`),
together with proofs and refutations of the specified properties.

The extractor calls Python's `re.search(pattern, text, re.IGNORECASE)`.  The
patterns used by the repository are built from literal characters, character
classes (colon/dash, dash/slash, `[\d,]`, `[.,]`), the escapes `\d`, `\s`,
`\.`, `\$`, the quantifiers `?`, `*`, `+`, repetition ranges, lazy dot-star, and capture
groups.  We embed exactly this fragment: a pattern is a sequence of items,
each item a single-character atom with a quantifier, or a capture group
containing such a sequence.  Matching follows Python's backtracking
semantics: `re.search` returns the match at the leftmost starting position,
and at that position the first alternative in backtracking preference order
(greedy quantifiers try longer repetitions first, lazy ones shorter first).
-/

namespace SmartDocOCR

/-- Element of a character class: the escape `\d`, the escape `\s`, or a
plain character. -/
inductive CC where
  | digit
  | space
  | ch (c : Char)
deriving DecidableEq

/-- Python whitespace for `\s` and `str.strip()`: space, tab, newline,
carriage return, vertical tab, form feed. -/
def isPySpace (c : Char) : Bool :=
  c == ' ' || c == '\t' || c == '\n' || c == '\r' ||
    c == Char.ofNat 11 || c == Char.ofNat 12

/-- Whether a class element accepts a character.  All searches in the source
pass `re.IGNORECASE`, so literal characters compare case-insensitively
(ASCII, which covers every pattern in the repository). -/
def ccMatches : CC → Char → Bool
  | .digit, c => c.isDigit
  | .space, c => isPySpace c
  | .ch a, c => a.toLower == c.toLower

/-- Single-character atom of a pattern. -/
inductive Atom where
  | lit (c : Char)
  | cls (cs : List CC)
  | dot
deriving DecidableEq

/-- Whether an atom accepts a character (`.` accepts anything but a
newline; `re.DOTALL` is never passed by the source). -/
def atomMatches : Atom → Char → Bool
  | .lit a, c => a.toLower == c.toLower
  | .cls cs, c => cs.any (fun e => ccMatches e c)
  | .dot, c => c != '\n'

/-- Quantifier on an atom.  `rep lo hi` is `{lo,hi}` (greedy); `lazyStar`
is `*?`. -/
inductive Quant where
  | one
  | opt
  | star
  | plus
  | rep (lo hi : Nat)
  | lazyStar
deriving DecidableEq

/-- A quantified atom: the body elements of a capture group. -/
inductive QAtom where
  | mk (a : Atom) (q : Quant)
deriving DecidableEq

/-- Item of a pattern: a quantified atom or a capture group.  Every
capture group appearing in the repository's patterns contains only
quantified atoms (no nested groups), so group bodies are sequences of
quantified atoms. -/
inductive Item where
  | atom (a : Atom) (q : Quant)
  | grp (g : List QAtom)
deriving DecidableEq

/-- A pattern rule is a sequence of items. -/
abbrev Pattern := List Item

/-- Length of the longest prefix of the input every character of which the
atom accepts.  Since every atom consumes exactly one character, a
repetition of the atom can consume any count up to this bound. -/
def maxTake (a : Atom) : List Char → Nat
  | [] => 0
  | c :: rest => if atomMatches a c then maxTake a rest + 1 else 0

/-- Candidate repetition counts for a quantifier, given that at most `m`
characters are available, listed in Python's backtracking preference order:
greedy quantifiers descending, lazy ones ascending. -/
def quantCands : Quant → Nat → List Nat
  | .one, m => if 1 ≤ m then [1] else []
  | .opt, m => if 1 ≤ m then [1, 0] else [0]
  | .star, m => (List.range (m + 1)).map (fun k => m - k)
  | .plus, m => if 1 ≤ m then (List.range m).map (fun k => m - k) else []
  | .rep lo hi, m =>
      let top := min hi m
      if lo ≤ top then (List.range (top - lo + 1)).map (fun k => top - k)
      else []
  | .lazyStar, m => List.range (m + 1)

/-- All ways a sequence of quantified atoms (a group body) can match a
prefix of the input, in backtracking preference order; each way is the
unconsumed remainder of the input. -/
def amatchA : List QAtom → List Char → List (List Char)
  | [], s => [s]
  | .mk a q :: rest, s =>
      (quantCands q (maxTake a s)).flatMap (fun n => amatchA rest (s.drop n))

/-- All ways a sequence of items can match a prefix of the input, in
backtracking preference order.  Each way is the list of captured-group
strings (in group-number order) paired with the unconsumed remainder of the
input.  Python's engine returns the first element of this enumeration. -/
def amatch : List Item → List Char → List (List String × List Char)
  | [], s => [([], s)]
  | .atom a q :: rest, s =>
      (quantCands q (maxTake a s)).flatMap (fun n => amatch rest (s.drop n))
  | .grp g :: rest, s =>
      (amatchA g s).flatMap (fun s1 =>
        (amatch rest s1).map (fun qr =>
          (String.mk (s.take (s.length - s1.length)) :: qr.1, qr.2)))

/-- Embedding of `re.search(pattern, text, re.IGNORECASE)`: try the pattern
at each starting position from the left; at the first position admitting a
match, return the preferred match's captured groups. -/
def reSearch (p : Pattern) : List Char → Option (List String)
  | [] =>
      match (amatch p []).head? with
      | some pr => some pr.1
      | none => none
  | c :: rest =>
      match (amatch p (c :: rest)).head? with
      | some pr => some pr.1
      | none => reSearch p rest

/-- Number of capture groups of a pattern (`len(match.groups())` is
determined by the pattern, not by the match). -/
def itemsGroups : List Item → Nat
  | [] => 0
  | .atom _ _ :: rest => itemsGroups rest
  | .grp _ :: rest => 1 + itemsGroups rest

/-- Python exceptions that the embedded code can raise. -/
inductive PyErr where
  | indexError
  | zeroDivisionError
deriving DecidableEq

instance {ε : Type u} {α : Type v} [DecidableEq ε] [DecidableEq α] :
    DecidableEq (Except ε α) := fun a b =>
  match a, b with
  | .error e1, .error e2 =>
      if h : e1 = e2 then .isTrue (by rw [h]) else .isFalse (by simp [h])
  | .error _, .ok _ => .isFalse (by simp)
  | .ok _, .error _ => .isFalse (by simp)
  | .ok v1, .ok v2 =>
      if h : v1 = v2 then .isTrue (by rw [h]) else .isFalse (by simp [h])

/-- Embedding of Python `str.strip()`: remove leading and trailing
whitespace. -/
def pyStrip (s : String) : String :=
  String.mk (((s.data.dropWhile isPySpace).reverse.dropWhile isPySpace).reverse)

/-- Embedding of Python `.replace(",", "")`: remove every comma. -/
def removeCommas (s : String) : String :=
  String.mk (s.data.filter (fun c => c ≠ ','))

/-- Embedding of `LayoutParser._extract_by_patterns`: try each pattern in
order with `re.search`; on the first match, if the match has two groups
return group 1 with commas removed and stripped, a dot, and group 2
stripped; otherwise return group 1 stripped (`match.group(1)` raises
IndexError when the pattern has no groups).  If no pattern matches, return
`none` (Python `None`). -/
def extract_by_patterns (text : List Char) : List Pattern → Except PyErr (Option String)
  | [] => .ok none
  | p :: rest =>
      match reSearch p text with
      | none => extract_by_patterns text rest
      | some caps =>
          if caps.length = 2 then
            match caps with
            | g1 :: g2 :: _ =>
                .ok (some (pyStrip (removeCommas g1) ++ "." ++ pyStrip g2))
            | _ => .error .indexError
          else
            match caps with
            | g1 :: _ => .ok (some (pyStrip g1))
            | [] => .error .indexError

/-- A field schema: insertion-ordered association list from field name to
rule list, as a Python dict. -/
abbrev Schema := List (String × List Pattern)

/-- Embedding of `LayoutParser.extract_fields`: for each field of the
schema, in order, resolve it with `extract_by_patterns`; an exception in
any field aborts the whole call. -/
def extract_fields (schema : Schema) (text : String) :
    Except PyErr (List (String × Option String)) :=
  match schema with
  | [] => .ok []
  | (f, pats) :: rest =>
      match extract_by_patterns text.data pats with
      | .error e => .error e
      | .ok v =>
          match extract_fields rest text with
          | .error e => .error e
          | .ok m => .ok ((f, v) :: m)

/-- Items for a literal word (each character matched once,
case-insensitively). -/
def lits (s : String) : List Item :=
  s.data.map (fun c => Item.atom (Atom.lit c) Quant.one)

/-- The item for `\s*`. -/
def ws0 : Item := Item.atom (Atom.cls [CC.space]) Quant.star

/-- The item for an optional colon-or-dash class. -/
def colonDashOpt : Item := Item.atom (Atom.cls [CC.ch ':', CC.ch '-']) Quant.opt

/-- The item for `\$?`. -/
def dollarOpt : Item := Item.atom (Atom.lit '$') Quant.opt

/-- The atom for `\d`. -/
def digitA : Atom := Atom.cls [CC.digit]

/-- The quantified atom for `[\d,]+` (group bodies). -/
def digitsCommas : QAtom := QAtom.mk (Atom.cls [CC.digit, CC.ch ',']) Quant.plus

/-- The item for a single period-or-comma class. -/
def dotComma : Item := Item.atom (Atom.cls [CC.ch '.', CC.ch ',']) Quant.one

/-- The quantified atom for a single dash-or-slash class (group bodies). -/
def dashSlash : QAtom := QAtom.mk (Atom.cls [CC.ch '-', CC.ch '/']) Quant.one

/-- The captured digit run `(\d+)` of the id rules. -/
def digitsGrp : Item := Item.grp [QAtom.mk digitA Quant.plus]

/-- The captured two cents digits of the total rules. -/
def centsGrp : Item := Item.grp [QAtom.mk digitA (Quant.rep 2 2)]

/-- The group body for a comma-grouped decimal (`[\d,]+` then `\.` then two
digits), used by the change rules. -/
def moneyGrp : Item :=
  Item.grp [digitsCommas, QAtom.mk (Atom.lit '.') Quant.one,
    QAtom.mk digitA (Quant.rep 2 2)]

/-- Rule 1 for the id field in `main.py`: a hash sign then one captured
digit run. -/
def idPat1 : Pattern := [Item.atom (Atom.lit '#') Quant.one, digitsGrp]

/-- Rule 2 for the id field: the word Receipt, optional separator, optional
hash sign, one captured digit run. -/
def idPat2 : Pattern :=
  lits "Receipt" ++ [ws0, colonDashOpt, ws0, Item.atom (Atom.lit '#') Quant.opt,
    digitsGrp]

/-- Rule 1 for the date field: one or two digits, a dash or slash, one or
two digits, a dash or slash, two to four digits, all captured. -/
def datePat1 : Pattern :=
  [Item.grp [QAtom.mk digitA (Quant.rep 1 2), dashSlash,
    QAtom.mk digitA (Quant.rep 1 2), dashSlash, QAtom.mk digitA (Quant.rep 2 4)]]

/-- Rule 2 for the date field: four digits, separator, one or two digits,
separator, one or two digits, all captured. -/
def datePat2 : Pattern :=
  [Item.grp [QAtom.mk digitA (Quant.rep 4 4), dashSlash,
    QAtom.mk digitA (Quant.rep 1 2), dashSlash, QAtom.mk digitA (Quant.rep 1 2)]]

/-- The shared tail of the first three total rules: optional separator,
optional dollar sign, a captured comma-grouped integer part, a period or
comma, and two captured cents digits. -/
def totalTail : List Item :=
  [ws0, colonDashOpt, ws0, dollarOpt, ws0, Item.grp [digitsCommas], ws0,
    dotComma, ws0, centsGrp]

/-- Rule 1 for the total field (upper-case literal in the source). -/
def totalPat1 : Pattern := lits "TOTAL" ++ totalTail

/-- Rule 2 for the total field (lower-case literal in the source). -/
def totalPat2 : Pattern := lits "total" ++ totalTail

/-- Rule 3 for the total field (Total Amount variant). -/
def totalPat3 : Pattern := lits "Total" ++ [ws0] ++ lits "Amount" ++ totalTail

/-- Rule 4 for the total field: the word Total, a lazy dot-star, optional
dollar sign, captured integer part, period or comma, captured cents. -/
def totalPat4 : Pattern :=
  lits "Total" ++ [Item.atom Atom.dot Quant.lazyStar, dollarOpt, ws0,
    Item.grp [digitsCommas], dotComma, ws0, centsGrp]

/-- Rule 1 for the change field (Change Due variant). -/
def changePat1 : Pattern :=
  lits "Change" ++ [ws0] ++ lits "Due" ++ [ws0, colonDashOpt, ws0, dollarOpt, moneyGrp]

/-- Rule 2 for the change field. -/
def changePat2 : Pattern :=
  lits "Change" ++ [ws0, colonDashOpt, ws0, dollarOpt, moneyGrp]

/-- Rule 3 for the change field (lower-case literal in the source). -/
def changePat3 : Pattern :=
  lits "change" ++ [ws0, colonDashOpt, ws0, dollarOpt, moneyGrp]

/-- The `receipt_patterns` schema defined in `main.py`. -/
def receipt_patterns : Schema :=
  [("id", [idPat1, idPat2]),
   ("date", [datePat1, datePat2]),
   ("total", [totalPat1, totalPat2, totalPat3, totalPat4]),
   ("change", [changePat1, changePat2, changePat3])]

/-! Image-normalization stage (`app/preprocess/image_preprocessor.py`).
The OpenCV calls are external library calls; we embed the buffer-shape
semantics that the repository relies on: color conversion to grayscale
produces a single-channel buffer of the same spatial size, Gaussian blur
and adaptive threshold preserve the shape, and resize produces a buffer of
exactly the requested size.  The repository's own arithmetic — the
aspect-ratio computation and Python's truncating `int()` — is embedded
exactly, over exact rationals. -/

/-- An image buffer, abstracted to its shape. -/
structure ImgBuf where
  width : Nat
  height : Nat
  channels : Nat
deriving DecidableEq

/-- Embedding of `cv2.cvtColor(img, cv2.COLOR_BGR2GRAY)` at the shape
level: one channel, same spatial size. -/
def cvtColorGray (b : ImgBuf) : ImgBuf := { b with channels := 1 }

/-- Embedding of `cv2.GaussianBlur(gray, (5, 5), 0)` at the shape level:
shape preserved. -/
def gaussianBlur (b : ImgBuf) : ImgBuf := b

/-- Embedding of `cv2.adaptiveThreshold(denoised, 255, ..., 11, 2)` at the
shape level: shape preserved. -/
def adaptiveThreshold (b : ImgBuf) : ImgBuf := b

/-- Embedding of `ImagePreprocessor._resize`: Python computes
`ratio = width / w` (raising ZeroDivisionError when `w` is zero) and
`new_height = int(h * ratio)`, where `int` truncates; then calls
`cv2.resize(image, (width, new_height))`, which yields a buffer of exactly
the requested size.  The float arithmetic is embedded as exact rational
arithmetic. -/
def resizeImg (image : ImgBuf) (width : Nat) : Except PyErr ImgBuf :=
  if image.width = 0 then .error .zeroDivisionError
  else
    .ok { image with
            width := width,
            height :=
              (Rat.floor ((image.height : ℚ) * ((width : ℚ) / (image.width : ℚ)))).toNat }

/-- The preprocessor object: `ImagePreprocessor(resize_width)`. -/
structure ImagePreprocessor where
  resize_width : Option Nat

/-- Embedding of `ImagePreprocessor.preprocess` on an in-memory buffer:
optional resize (only when `resize_width` is truthy, i.e. set and
nonzero), then grayscale, Gaussian blur, and adaptive threshold. -/
def preprocess (p : ImagePreprocessor) (img : ImgBuf) : Except PyErr ImgBuf :=
  match p.resize_width with
  | some w =>
      if w ≠ 0 then
        match resizeImg img w with
        | .error e => .error e
        | .ok r => .ok (adaptiveThreshold (gaussianBlur (cvtColorGray r)))
      else .ok (adaptiveThreshold (gaussianBlur (cvtColorGray img)))
  | none => .ok (adaptiveThreshold (gaussianBlur (cvtColorGray img)))

/-- Round to nearest, as the specification words it for the resized height
(`round(h * W / w)`, written here over exact rationals with halves rounded
up). -/
def specRound (num den : Nat) : Nat := (2 * num + den) / (2 * den)

/-! Basic lemmas about the matcher and the extractor. -/

/-- Every way a pattern fragment matches captures exactly one string per
capture group of the fragment. -/
theorem amatch_fst_length (items : List Item) :
    ∀ (s : List Char), ∀ pr ∈ amatch items s, pr.1.length = itemsGroups items := by
  induction items with
  | nil =>
      intro s pr hpr
      simp only [amatch, List.mem_singleton] at hpr
      subst hpr
      simp [itemsGroups]
  | cons i rest ih =>
      cases i with
      | atom a q =>
          intro s pr hpr
          simp only [amatch, List.mem_flatMap] at hpr
          obtain ⟨n, -, hmem⟩ := hpr
          rw [ih _ pr hmem]
          simp [itemsGroups]
      | grp g =>
          intro s pr hpr
          simp only [amatch, List.mem_flatMap, List.mem_map] at hpr
          obtain ⟨s1, -, qr, h2, h3⟩ := hpr
          have hr := ih s1 qr h2
          subst h3
          simp [itemsGroups, hr]
          omega

/-- A successful search returns exactly one captured string per capture
group of the pattern. -/
theorem reSearch_length (p : Pattern) :
    ∀ (s : List Char) (caps : List String),
      reSearch p s = some caps → caps.length = itemsGroups p := by
  intro s
  induction s with
  | nil =>
      intro caps h
      simp only [reSearch] at h
      cases hh : (amatch p []).head? with
      | none => rw [hh] at h; cases h
      | some pr =>
          rw [hh] at h
          cases h
          exact amatch_fst_length p [] pr (List.mem_of_mem_head? (by rw [hh]; rfl))
  | cons c rest ih =>
      intro caps h
      simp only [reSearch] at h
      cases hh : (amatch p (c :: rest)).head? with
      | none => rw [hh] at h; exact ih caps h
      | some pr =>
          rw [hh] at h
          cases h
          exact amatch_fst_length p (c :: rest) pr
            (List.mem_of_mem_head? (by rw [hh]; rfl))

/-- A pattern that fails to match is skipped by the rule walk. -/
theorem ebp_cons_nomatch (t : List Char) (p : Pattern) (rest : List Pattern)
    (h : reSearch p t = none) :
    extract_by_patterns t (p :: rest) = extract_by_patterns t rest := by
  simp [extract_by_patterns, h]

/-- A prefix of failing patterns does not affect the rule walk. -/
theorem ebp_skip_failing (t : List Char) (pre l : List Pattern)
    (h : ∀ p ∈ pre, reSearch p t = none) :
    extract_by_patterns t (pre ++ l) = extract_by_patterns t l := by
  induction pre with
  | nil => rfl
  | cons p rest ih =>
      rw [List.cons_append, ebp_cons_nomatch t p (rest ++ l) (h p (by simp))]
      exact ih (fun q hq => h q (by simp [hq]))

/-- Once a pattern matches, the patterns after it are irrelevant: the walk
over any list headed by a matching pattern equals the walk over that
pattern alone. -/
theorem ebp_cons_match (t : List Char) (p : Pattern) (rest : List Pattern)
    (caps : List String) (h : reSearch p t = some caps) :
    extract_by_patterns t (p :: rest) = extract_by_patterns t [p] := by
  simp only [extract_by_patterns, h]

/-- The keys of a successful extraction are exactly the schema keys, in
order. -/
theorem extract_fields_keys (schema : Schema) (t : String) :
    ∀ (m : List (String × Option String)), extract_fields schema t = .ok m →
      m.map Prod.fst = schema.map Prod.fst := by
  induction schema with
  | nil =>
      intro m h
      simp only [extract_fields] at h
      cases h
      rfl
  | cons fp rest ih =>
      intro m h
      obtain ⟨f, pats⟩ := fp
      simp only [extract_fields] at h
      cases h1 : extract_by_patterns t.data pats with
      | error e => rw [h1] at h; cases h
      | ok v =>
          rw [h1] at h
          cases h2 : extract_fields rest t with
          | error e => rw [h2] at h; cases h
          | ok m2 =>
              rw [h2] at h
              cases h
              simp [ih m2 h2]

/-- A successful extraction resolves each schema field to exactly the
value computed by the rule walk for that field. -/
theorem extract_fields_lookup (schema : Schema) (t : String) :
    ∀ (m : List (String × Option String)) (f : String) (pats : List Pattern),
      extract_fields schema t = .ok m → List.lookup f schema = some pats →
        ∃ v, extract_by_patterns t.data pats = .ok v ∧ List.lookup f m = some v := by
  induction schema with
  | nil =>
      intro m f pats _ hl
      cases hl
  | cons fp rest ih =>
      intro m f pats h hl
      obtain ⟨f0, pats0⟩ := fp
      simp only [extract_fields] at h
      cases h1 : extract_by_patterns t.data pats0 with
      | error e => rw [h1] at h; cases h
      | ok v =>
          rw [h1] at h
          cases h2 : extract_fields rest t with
          | error e => rw [h2] at h; cases h
          | ok m2 =>
              rw [h2] at h
              cases h
              by_cases hf : (f == f0) = true
              · simp only [List.lookup, hf] at hl ⊢
                cases hl
                exact ⟨v, h1, rfl⟩
              · simp only [List.lookup, hf] at hl ⊢
                exact ih m2 f pats h2 hl

/-- The rule walk cannot raise when every rule has at least one capture
group: a match then always carries a group 1. -/
theorem ebp_ok_of_groups (t : List Char) (pats : List Pattern)
    (h : ∀ p ∈ pats, itemsGroups p ≠ 0) :
    ∃ v, extract_by_patterns t pats = .ok v := by
  induction pats with
  | nil => exact ⟨none, rfl⟩
  | cons p rest ih =>
      cases hs : reSearch p t with
      | none =>
          rw [ebp_cons_nomatch t p rest hs]
          exact ih (fun q hq => h q (by simp [hq]))
      | some caps =>
          have hlen := reSearch_length p t caps hs
          cases caps with
          | nil =>
              exact absurd (by simpa using hlen.symm) (h p (by simp))
          | cons g1 caps2 =>
              cases caps2 with
              | nil => exact ⟨some (pyStrip g1), by simp [extract_by_patterns, hs]⟩
              | cons g2 caps3 =>
                  by_cases h2 : caps3 = []
                  · subst h2
                    exact ⟨some (pyStrip (removeCommas g1) ++ "." ++ pyStrip g2),
                      by simp [extract_by_patterns, hs]⟩
                  · have hne : (g1 :: g2 :: caps3).length ≠ 2 := by
                      simp [List.length_eq_zero]
                      exact h2
                    exact ⟨some (pyStrip g1),
                      by simp [extract_by_patterns, hs, hne, h2]⟩

/-- Truncating the exact ratio is natural division: the floor of
`h * (W / w)` over the rationals is `h * W / w` with natural division. -/
theorem rat_floor_mul_div (h w W : Nat) :
    (Rat.floor ((h : ℚ) * ((W : ℚ) / (w : ℚ)))).toNat = h * W / w := by
  have h1 : (h : ℚ) * ((W : ℚ) / (w : ℚ)) = ((h * W : ℕ) : ℚ) / ((w : ℕ) : ℚ) := by
    push_cast
    ring
  rw [show Rat.floor ((h : ℚ) * ((W : ℚ) / (w : ℚ))) =
        ⌊(h : ℚ) * ((W : ℚ) / (w : ℚ))⌋ from rfl,
    h1, Int.floor_toNat, Nat.floor_div_eq_div]

/-- The resize step on a buffer of nonzero width: width becomes the
target, height the truncated exact ratio. -/
theorem resizeImg_ok (img : ImgBuf) (W : Nat) (hw : img.width ≠ 0) :
    resizeImg img W =
      .ok { img with
              width := W,
              height := img.height * W / img.width } := by
  simp [resizeImg, hw, rat_floor_mul_div]

/-! Concrete artifacts used by the claims. -/

/-- The recognized text of the end-to-end scenario. -/
def c7text : String :=
  "Receipt: #9876\nDate: 2025-07-15\nTotal: $123,45\nChange Due: $5.00"

/-- A well-formed rule with three capture groups: three literal groups in a
row. -/
def threeGrpPat : Pattern :=
  [Item.grp [QAtom.mk (Atom.lit 'a') Quant.one],
   Item.grp [QAtom.mk (Atom.lit 'b') Quant.one],
   Item.grp [QAtom.mk (Atom.lit 'c') Quant.one]]

/-- A one-group rule whose group matches only whitespace: a literal word
followed by a captured whitespace run. -/
def wsGrpPat : Pattern :=
  lits "Value:" ++ [Item.grp [QAtom.mk (Atom.cls [CC.space]) Quant.star]]

/-! The claims. -/

/-- C1: for every text and every field whose rule list is some
`pre ++ r :: post`, if every rule of `pre` fails to match and `r` matches,
then `extract_fields` resolves that field to exactly the value the rule
walk over `[r]` alone would produce; the rules of `post` do not influence
the result. -/
theorem claim_C1_first_match_wins (schema : Schema) (t : String) (f : String)
    (pre : List Pattern) (r : Pattern) (post : List Pattern)
    (caps : List String) (m : List (String × Option String))
    (hl : List.lookup f schema = some (pre ++ r :: post))
    (hpre : ∀ p ∈ pre, reSearch p t.data = none)
    (hr : reSearch r t.data = some caps)
    (hok : extract_fields schema t = .ok m) :
    ∃ v, extract_by_patterns t.data [r] = .ok v ∧ List.lookup f m = some v := by
  obtain ⟨v, hv, hlm⟩ := extract_fields_lookup schema t m f _ hok hl
  refine ⟨v, ?_, hlm⟩
  rw [ebp_skip_failing t.data pre (r :: post) hpre] at hv
  rw [ebp_cons_match t.data r post caps hr] at hv
  exact hv

/-- Witness for C1: in a schema whose field rules are the two id rules in
reverse order, the text contains no Receipt literal, so the second rule is
the first match and determines the result. -/
theorem claim_C1_witness :
    ∃ v, extract_by_patterns "#42".data [idPat1] = .ok v ∧
      List.lookup "f" [("f", some "42")] = some v :=
  claim_C1_first_match_wins [("f", [idPat2, idPat1])] "#42" "f"
    [idPat2] idPat1 [] ["42"] [("f", some "42")]
    rfl (by decide) (by decide) (by decide)

/-- C2: a successful `extract_fields` call returns a map whose keys are
exactly the schema's field names, in schema order, for every input text. -/
theorem claim_C2_schema_completeness (schema : Schema) (t : String)
    (m : List (String × Option String)) (hok : extract_fields schema t = .ok m) :
    m.map Prod.fst = schema.map Prod.fst :=
  extract_fields_keys schema t m hok

/-- Witness for C2: the receipt schema on empty text yields a map with the
four schema keys. -/
theorem claim_C2_witness :
    [("id", (none : Option String)), ("date", none), ("total", none),
        ("change", none)].map Prod.fst =
      receipt_patterns.map Prod.fst :=
  claim_C2_schema_completeness receipt_patterns ""
    [("id", none), ("date", none), ("total", none), ("change", none)]
    (by decide)

/-- C3: when the first matching rule of a field captures exactly two
groups, the field resolves to group 1 with commas (the grouping separator)
removed and stripped, then a dot, then group 2 stripped. -/
theorem claim_C3_two_group_reassembly (schema : Schema) (t : String)
    (f : String) (pre : List Pattern) (r : Pattern) (post : List Pattern)
    (g1 g2 : String) (m : List (String × Option String))
    (hl : List.lookup f schema = some (pre ++ r :: post))
    (hpre : ∀ p ∈ pre, reSearch p t.data = none)
    (hr : reSearch r t.data = some [g1, g2])
    (hok : extract_fields schema t = .ok m) :
    List.lookup f m =
      some (some (pyStrip (removeCommas g1) ++ "." ++ pyStrip g2)) := by
  obtain ⟨v, hv, hlm⟩ := extract_fields_lookup schema t m f _ hok hl
  rw [ebp_skip_failing t.data pre (r :: post) hpre,
    ebp_cons_match t.data r post [g1, g2] hr] at hv
  simp only [extract_by_patterns, hr, List.length_cons, List.length_nil,
    if_pos rfl] at hv
  cases hv
  exact hlm

/-- Witness for C3: the first total rule on a text where group 1 captures
a comma-grouped integer part and group 2 the cents yields the reassembled
decimal. -/
theorem claim_C3_witness :
    List.lookup "total" [("total", some "1234.56")] =
      some (some (pyStrip (removeCommas "1,234") ++ "." ++ pyStrip "56")) :=
  claim_C3_two_group_reassembly [("total", [totalPat1])] "Total: $1,234.56"
    "total" [] totalPat1 [] "1,234" "56" [("total", some "1234.56")]
    rfl (by decide) (by decide) (by decide)

/-- C4: a field whose rule list is empty, or whose rules all fail on the
text, resolves to the explicit absence marker `none`; the key is present
in the output map. -/
theorem claim_C4_absence (schema : Schema) (t : String) (f : String)
    (pats : List Pattern) (m : List (String × Option String))
    (hl : List.lookup f schema = some pats)
    (hfail : ∀ p ∈ pats, reSearch p t.data = none)
    (hok : extract_fields schema t = .ok m) :
    List.lookup f m = some none := by
  obtain ⟨v, hv, hlm⟩ := extract_fields_lookup schema t m f pats hok hl
  have he : extract_by_patterns t.data pats = .ok none := by
    have h0 := ebp_skip_failing t.data pats [] hfail
    rw [List.append_nil] at h0
    exact h0
  rw [he] at hv
  cases hv
  exact hlm

/-- Witness for C4: no total rule matches unrelated text, and the total
key is still present, resolved to the absence marker. -/
theorem claim_C4_witness :
    List.lookup "total"
        [("id", (none : Option String)), ("date", none), ("total", none),
          ("change", none)] =
      some none :=
  claim_C4_absence receipt_patterns "hello" "total"
    [totalPat1, totalPat2, totalPat3, totalPat4]
    [("id", none), ("date", none), ("total", none), ("change", none)]
    rfl (by decide) (by decide)

/-- Counterexample to C5 as stated: a rule with three capture groups that
matches does silently resolve the field, to group 1, exactly as a
one-group rule would. -/
theorem claim_C5_counterexample :
    itemsGroups threeGrpPat = 3 ∧
      extract_fields [("f", [threeGrpPat])] "abc" = .ok [("f", some "a")] := by
  constructor
  · decide
  · decide

/-- C5 amended: for a matching rule whose capture-group count is neither
one nor two, the extractor raises IndexError when the count is zero
(so no value is produced silently in that case), but for three or more
groups it silently resolves the field to group 1 stripped, exactly as a
one-group rule would. -/
theorem claim_C5_amended_group_count (t : List Char) (r : Pattern)
    (post : List Pattern) (caps : List String)
    (hr : reSearch r t = some caps)
    (h1 : itemsGroups r ≠ 1) (h2 : itemsGroups r ≠ 2) :
    extract_by_patterns t (r :: post) =
      match caps with
      | [] => .error .indexError
      | g1 :: _ => .ok (some (pyStrip g1)) := by
  have hlen := reSearch_length r t caps hr
  cases caps with
  | nil => simp [extract_by_patterns, hr]
  | cons g1 rest =>
      have hne : (g1 :: rest).length ≠ 2 := by
        rw [hlen]
        exact h2
      cases rest with
      | nil => simp [extract_by_patterns, hr]
      | cons g2 rest2 =>
          have hr2 : rest2 ≠ [] := by
            intro hc
            subst hc
            exact hne rfl
          simp [extract_by_patterns, hr, hne, hr2]

/-- Witness for C5: the three-group rule resolves to group 1 stripped,
and a matching zero-group rule raises IndexError. -/
theorem claim_C5_witness :
    extract_by_patterns "abc".data [threeGrpPat] = .ok (some (pyStrip "a")) ∧
      extract_by_patterns "xxab".data [lits "ab"] = .error .indexError :=
  ⟨claim_C5_amended_group_count "abc".data threeGrpPat [] ["a", "b", "c"]
      (by decide) (by decide) (by decide),
    claim_C5_amended_group_count "xxab".data (lits "ab") [] []
      (by decide) (by decide) (by decide)⟩

/-- Counterexample to C6 as stated: the schema holding a single rule with
no capture group is reachable through add_field, the rule matches the
text, and extract_fields raises IndexError instead of returning. -/
theorem claim_C6_counterexample :
    extract_fields [("f", [lits "ab"])] "xxab" = .error .indexError := by decide

/-- C6 amended: extract_fields returns normally on every text for every
schema all of whose rules have at least one capture group (the schemas the
data model admits); a matching zero-group rule instead raises IndexError. -/
theorem claim_C6_amended_no_raise (schema : Schema) (t : String)
    (h : ∀ fp ∈ schema, ∀ p ∈ fp.2, itemsGroups p ≠ 0) :
    ∃ m, extract_fields schema t = .ok m := by
  induction schema with
  | nil => exact ⟨[], rfl⟩
  | cons fp rest ih =>
      obtain ⟨f, pats⟩ := fp
      obtain ⟨v, hv⟩ :=
        ebp_ok_of_groups t.data pats (fun p hp => h (f, pats) (by simp) p hp)
      obtain ⟨m2, hm2⟩ := ih (fun q hq p hp => h q (by simp [hq]) p hp)
      exact ⟨(f, v) :: m2, by simp [extract_fields, hv, hm2]⟩

/-- Witness for C6: every rule of the receipt schema has at least one
capture group, so extraction returns normally on the scenario text. -/
theorem claim_C6_witness :
    ∃ m, extract_fields receipt_patterns c7text = .ok m :=
  claim_C6_amended_no_raise receipt_patterns c7text (by decide)

/-- Counterexample to C7 as stated: on the scenario text the extraction
result is not the claimed map — the date resolves to 25-07-15, not to
2025-07-15, because the first date rule allows at most two leading digits
and re.search returns the leftmost match, which starts inside 2025. -/
theorem claim_C7_counterexample :
    extract_fields receipt_patterns c7text ≠
      .ok [("id", some "9876"), ("date", some "2025-07-15"),
        ("total", some "123.45"), ("change", some "5.00")] := by decide

/-- C7 amended: with the default receipt schema the scenario text yields
id 9876, date 25-07-15 (the leftmost match of the first date rule inside
2025-07-15), total 123.45 via two-group reassembly, and change 5.00. -/
theorem claim_C7_end_to_end :
    extract_fields receipt_patterns c7text =
      .ok [("id", some "9876"), ("date", some "25-07-15"),
        ("total", some "123.45"), ("change", some "5.00")] := by decide

/-- Counterexample to C8 as stated: resizing a 4-wide, 7-high image to
target width 2 yields height 3 (truncation of 3.5), while rounding
7 times 2 over 4 to the nearest integer yields 4; all intermediate floats
are exactly representable, so the float code truncates the same way. -/
theorem claim_C8_counterexample :
    resizeImg (ImgBuf.mk 4 7 3) 2 = .ok (ImgBuf.mk 2 3 3) ∧
      specRound (7 * 2) 4 ≠ 3 := by
  constructor
  · rw [resizeImg_ok (ImgBuf.mk 4 7 3) 2 (by decide)]
    rfl
  · decide

/-- C8 amended: resizing to target width W produces width exactly W and
height equal to the truncation (not the rounding) of h times W over w,
stated here over exact rational arithmetic. -/
theorem claim_C8_amended_resize_dims (img : ImgBuf) (W : Nat)
    (hw : img.width ≠ 0) :
    resizeImg img W =
      .ok { img with
              width := W,
              height := img.height * W / img.width } := by
  simp [resizeImg, hw, rat_floor_mul_div]

/-- Witness for C8: the 4-wide, 7-high image resized to width 2 has height
7 times 2 over 4, truncated. -/
theorem claim_C8_witness :
    resizeImg (ImgBuf.mk 4 7 3) 2 =
      .ok { ImgBuf.mk 4 7 3 with
              width := 2,
              height := 7 * 2 / 4 } :=
  claim_C8_amended_resize_dims (ImgBuf.mk 4 7 3) 2 (by decide)

/-- C9: preprocessing never raises on a three-channel buffer of positive
width and positive height, whatever resize width the preprocessor was
constructed with; only a zero-width buffer can be rejected (by the
ZeroDivisionError of the aspect-ratio computation). -/
theorem claim_C9_no_error (p : ImagePreprocessor) (img : ImgBuf)
    (hc : img.channels = 3) (hw : 0 < img.width) (hh : 0 < img.height) :
    ∃ out, preprocess p img = .ok out := by
  obtain ⟨orw⟩ := p
  cases orw with
  | none => exact ⟨_, rfl⟩
  | some w =>
      by_cases hw0 : w = 0
      · subst hw0
        exact ⟨_, rfl⟩
      · have hne : img.width ≠ 0 := Nat.pos_iff_ne_zero.mp hw
        exact ⟨adaptiveThreshold (gaussianBlur (cvtColorGray
          { img with
              width := w,
              height :=
                (Rat.floor ((img.height : ℚ) *
                  ((w : ℚ) / (img.width : ℚ)))).toNat })),
          by simp [preprocess, hw0, resizeImg, hne]⟩

/-- Witness for C9. -/
theorem claim_C9_witness :
    ∃ out, preprocess (ImagePreprocessor.mk (some 800)) (ImgBuf.mk 100 50 3) = .ok out :=
  claim_C9_no_error (ImagePreprocessor.mk (some 800)) (ImgBuf.mk 100 50 3)
    rfl (by decide) (by decide)

/-- C10: a present value in the result map can be the empty string: a
one-group rule whose group matches only whitespace resolves the field to
an empty string, which is distinct from the absence marker. -/
theorem claim_C10_empty_capture :
    extract_fields [("v", [wsGrpPat])] "Value: x" = .ok [("v", some "")] ∧
      (some "" : Option String) ≠ none := by
  constructor
  · decide
  · decide

end SmartDocOCR
